import Mathlib

/-!
Verification development for `geomstats/geometry/invariant_metric.py`
(left-, right- and bi-invariant metrics on Lie groups).

The Python module is embedded shallowly:

* Scalars are exact rationals `ℚ`; floating point rounding is not modelled.
* Points and tangent vectors of a vector-parameterized group
  (`default_point_type == 'vector'`) are `Fin d → ℚ`; those of a
  matrix-parameterized group (`default_point_type == 'matrix'`) are
  `Matrix (Fin n) (Fin n) ℚ`.  The two configurations of the single Python
  class `InvariantMetric` are embedded as `VecInvariantMetric` and
  `MatInvariantMetric`; each method transcribes the branch(es) of the Python
  method reachable for that `default_point_type`.
* External collaborators (the group, the Lie-algebra basis provider, the
  array backend, the optimizer, the random generator) are records of
  injected functions, mirroring how the Python code consumes them through
  narrow interfaces.
* A Python exception is an `Except PyError` result.
-/

/-- The numpy backend's default relative tolerance (`rtol = 1e-5`) used by
`gs.isclose` / `gs.allclose`. -/
def RTOL : ℚ := 1 / 100000

/-- The numpy backend's default absolute tolerance (`atol = 1e-8`) used by
`gs.isclose` / `gs.allclose`. -/
def ATOL : ℚ := 1 / 100000000

/-- `EPSILON = 1e-6` from `invariant_metric.py` line 13. -/
def EPSILON : ℚ := 1 / 1000000

/-- Scalar `gs.isclose(x, y)` of the array backend (numpy semantics:
`|x - y| <= atol + rtol * |y|`). -/
def qIsClose (x y : ℚ) : Prop := |x - y| ≤ ATOL + RTOL * |y|

instance (x y : ℚ) : Decidable (qIsClose x y) := by
  unfold qIsClose; infer_instance

/-- `gs.allclose` on flat vectors: elementwise `isclose`. -/
def vAllClose {d : ℕ} (a b : Fin d → ℚ) : Prop := ∀ i, qIsClose (a i) (b i)

instance {d : ℕ} (a b : Fin d → ℚ) : Decidable (vAllClose a b) := by
  unfold vAllClose; infer_instance

/-- The `left_or_right` flag; `check_parameter_accepted_values` restricts it to
`{'left', 'right'}`, embedded as an inductive type. -/
inductive LeftOrRight where
  | left
  | right
deriving DecidableEq, Repr

/-- Python exceptions raised by the module or its collaborators. -/
inductive PyError where
  | attributeError
  | valueError
  | notImplementedError
deriving DecidableEq, Repr

/-- Points / tangent vectors of a vector-parameterized group. -/
abbrev Vec (d : ℕ) := Fin d → ℚ

/-- Points / tangent vectors of a matrix-parameterized group. -/
abbrev Mat (n : ℕ) := Matrix (Fin n) (Fin n) ℚ

/-- The Lie-group collaborator for a vector-parameterized group
(`group` argument of `InvariantMetric.__init__`), consumed through the
interface listed in spec section 6. -/
structure VecGroup (d : ℕ) where
  identity : Vec d
  compose : Vec d → Vec d → Vec d
  inverse : Vec d → Vec d
  regularize : Vec d → Vec d
  regularize_tangent_vec_at_identity : Vec d → Vec d
  tangent_translation_map : Vec d → LeftOrRight → Bool → (Vec d → Vec d)
  jacobian_translation : Vec d → LeftOrRight → Matrix (Fin d) (Fin d) ℚ

/-- The dense-linear-algebra primitives of the array backend used by the
closed-form exp/log engine: `gs.linalg.sqrtm` (principal matrix square root)
and `GeneralLinear.inverse` (= `gs.linalg.inv`).  Both are external
collaborators (spec sections 1 and 6), injected as functions. -/
structure VecBackend (d : ℕ) where
  sqrtm : Matrix (Fin d) (Fin d) ℚ → Matrix (Fin d) (Fin d) ℚ
  inv : Matrix (Fin d) (Fin d) ℚ → Matrix (Fin d) (Fin d) ℚ

/-- `InvariantMetric` in its `default_point_type == 'vector'` configuration
(`invariant_metric.py` lines 16-60).  `lie_algebra` is the constructor's
`algebra` argument (default `None`); no vector-path method dereferences it. -/
structure VecInvariantMetric (d : ℕ) where
  group : VecGroup d
  lie_algebra : Option Unit
  metric_mat_at_identity : Matrix (Fin d) (Fin d) ℚ
  left_or_right : LeftOrRight
  backend : VecBackend d

namespace VecInvariantMetric

variable {d : ℕ}

/-- `inner_product_at_identity` (lines 62-104), vector branch:
`einsum('...i,...ij->...j', a, M)` followed by `einsum('...j,...j->...', ·, b)`,
i.e. `aᵀ M b`. -/
def inner_product_at_identity (m : VecInvariantMetric d) (a b : Vec d) : ℚ :=
  Matrix.dotProduct (Matrix.vecMul a m.metric_mat_at_identity) b

/-- `metric_matrix` (lines 141-175), vector branch: the pulled-back form
`J⁻ᵀ M J⁻¹` at the regularized base point (identity when omitted). -/
def metric_matrix (m : VecInvariantMetric d) (base_point : Option (Vec d)) :
    Matrix (Fin d) (Fin d) ℚ :=
  let bp := match base_point with
    | none => m.group.identity
    | some p => m.group.regularize p
  let jacobian := m.group.jacobian_translation bp m.left_or_right
  let inv_jacobian := m.backend.inv jacobian
  let inv_jacobian_transposed := inv_jacobian.transpose
  inv_jacobian_transposed * m.metric_mat_at_identity * inv_jacobian

/-- Modelled from the spec: `RiemannianMetric.inner_product` (the base class is
not part of the sources).  Per spec section 4.1 the base class evaluates the
pulled-back bilinear form `metric_matrix(base_point)` on the two vectors. -/
def riemannian_metric_inner_product (m : VecInvariantMetric d) (a b : Vec d)
    (base_point : Vec d) : ℚ :=
  Matrix.dotProduct (Matrix.vecMul a (m.metric_matrix (some base_point))) b

/-- `inner_product` (lines 106-139), vector branch: `base_point = None`
delegates to the identity version; otherwise the vector-type path returns
`super().inner_product(a, b, base_point)` (line 127-131). -/
def inner_product (m : VecInvariantMetric d) (a b : Vec d)
    (base_point : Option (Vec d)) : ℚ :=
  match base_point with
  | none => m.inner_product_at_identity a b
  | some p => m.riemannian_metric_inner_product a b p

/-- `left_exp_from_identity` (lines 518-548): regularize the tangent vector,
multiply by `sqrtm(M)ᵀ`, regularize the result. -/
def left_exp_from_identity (m : VecInvariantMetric d) (tangent_vec : Vec d) :
    Vec d :=
  let tv := m.group.regularize_tangent_vec_at_identity tangent_vec
  let sqrt_inner_product_mat := m.backend.sqrtm m.metric_mat_at_identity
  let mat := sqrt_inner_product_mat.transpose
  let e := Matrix.vecMul tv mat
  m.group.regularize e

/-- `exp_from_identity` (lines 550-571). -/
def exp_from_identity (m : VecInvariantMetric d) (tangent_vec : Vec d) :
    Vec d :=
  match m.left_or_right with
  | .left => m.group.regularize (m.left_exp_from_identity tangent_vec)
  | .right =>
    let opp_left_exp := m.left_exp_from_identity (-tangent_vec)
    m.group.regularize (m.group.inverse opp_left_exp)

/-- `exp` (lines 573-613): regularize the base point (identity when omitted);
if it is `allclose` to the identity, return `exp_from_identity`; otherwise
translate the tangent vector to identity, exponentiate there, compose with the
base point on the orientation side and regularize. -/
def exp (m : VecInvariantMetric d) (tangent_vec : Vec d)
    (base_point : Option (Vec d)) : Vec d :=
  let identity := m.group.identity
  let bp0 := match base_point with
    | none => identity
    | some p => p
  let bp := m.group.regularize bp0
  if vAllClose bp identity then m.exp_from_identity tangent_vec
  else
    let tangent_vec_at_id :=
      m.group.tangent_translation_map bp m.left_or_right true tangent_vec
    let exp_from_id := m.exp_from_identity tangent_vec_at_id
    let e := match m.left_or_right with
      | .left => m.group.compose bp exp_from_id
      | .right => m.group.compose exp_from_id bp
    m.group.regularize e

/-- `left_log_from_identity` (lines 615-643): regularize the point, multiply by
`sqrtm(M⁻¹)`, regularize as a tangent vector at identity. -/
def left_log_from_identity (m : VecInvariantMetric d) (point : Vec d) : Vec d :=
  let p := m.group.regularize point
  let inner_prod_mat := m.metric_mat_at_identity
  let inv_inner_prod_mat := m.backend.inv inner_prod_mat
  let sqrt_inv_inner_prod_mat := m.backend.sqrtm inv_inner_prod_mat
  let lg := Matrix.vecMul p sqrt_inv_inner_prod_mat
  m.group.regularize_tangent_vec_at_identity lg

/-- `log_from_identity` (lines 645-668). -/
def log_from_identity (m : VecInvariantMetric d) (point : Vec d) : Vec d :=
  let p := m.group.regularize point
  match m.left_or_right with
  | .left => m.left_log_from_identity p
  | .right =>
    let inv_point := m.group.inverse p
    let left_log := m.left_log_from_identity inv_point
    Neg.neg left_log

end VecInvariantMetric

/-- `Matrices.is_diagonal` (module `geomstats.geometry.matrices`, an external
collaborator of this file): every off-diagonal entry is zero. -/
def isDiagonal {d : ℕ} (mm : Matrix (Fin d) (Fin d) ℚ) : Prop :=
  ∀ i j, i ≠ j → mm i j = 0

instance {d : ℕ} (mm : Matrix (Fin d) (Fin d) ℚ) : Decidable (isDiagonal mm) := by
  unfold isDiagonal; infer_instance

/-- `GeneralLinear.bracket` (module `geomstats.geometry.general_linear`, an
external collaborator): the matrix commutator `a b - b a`. -/
def bracket {n : ℕ} (a b : Mat n) : Mat n := a * b - b * a

/-- The Lie-algebra basis provider (`algebra` constructor argument, spec
section 2 component 1): supplies an orthonormal basis for a given bilinear
form, and `reshape_metric_matrix`, which spreads a diagonal `dim × dim` metric
matrix over the `n × n` entries of the matrix representation. -/
structure MatAlgebra (n d : ℕ) where
  orthonormal_basis : Matrix (Fin d) (Fin d) ℚ → List (Mat n)
  reshape_metric_matrix : Matrix (Fin d) (Fin d) ℚ → Mat n

/-- The Lie-group collaborator for a matrix-parameterized group.  `transport`
is the group's own transport law used by the injected integrator to advance
the position of the integration state (spec section 4.4);
`to_tangent` projects onto the tangent space at a base point. -/
structure MatGroup (n : ℕ) where
  compose : Mat n → Mat n → Mat n
  inverse : Mat n → Mat n
  regularize : Mat n → Mat n
  tangent_translation_map : Mat n → LeftOrRight → Bool → (Mat n → Mat n)
  transport : Mat n → Mat n → Mat n
  to_tangent : Mat n → Mat n → Mat n

/-- `InvariantMetric` in its `default_point_type == 'matrix'` configuration.
`lie_algebra` is the constructor's `algebra` argument, default `None`
(lines 37-43); dereferencing it while it is `None` raises `AttributeError`. -/
structure MatInvariantMetric (n d : ℕ) where
  group : MatGroup n
  lie_algebra : Option (MatAlgebra n d)
  metric_mat_at_identity : Matrix (Fin d) (Fin d) ℚ
  left_or_right : LeftOrRight

namespace MatInvariantMetric

variable {n d : ℕ}

/-- `inner_product_at_identity` (lines 62-104), matrix branch: the sum of the
Hadamard product `a ∘ b`, elementwise reweighted by
`lie_algebra.reshape_metric_matrix(M)` when `M` is diagonal and a Lie-algebra
provider is present (lines 96-102). -/
def inner_product_at_identity (m : MatInvariantMetric n d) (a b : Mat n) : ℚ :=
  let aux_prod : Mat n := fun i j => a i j * b i j
  let aux_prod2 : Mat n :=
    match m.lie_algebra with
    | some alg =>
      if isDiagonal m.metric_mat_at_identity then
        fun i j => aux_prod i j * alg.reshape_metric_matrix m.metric_mat_at_identity i j
      else aux_prod
    | none => aux_prod
  ∑ i, ∑ j, aux_prod2 i j

/-- `inner_product` (lines 106-139), matrix branch: `base_point = None`
delegates to the identity version; otherwise both vectors are translated to
identity by the inverse tangent-translation map at the base point
(lines 133-139). -/
def inner_product (m : MatInvariantMetric n d) (a b : Mat n)
    (base_point : Option (Mat n)) : ℚ :=
  match base_point with
  | none => m.inner_product_at_identity a b
  | some p =>
    let tangent_translation :=
      m.group.tangent_translation_map p m.left_or_right true
    m.inner_product_at_identity (tangent_translation a) (tangent_translation b)

/-- Modelled from the spec: `RiemannianMetric.squared_norm` (base class, not in
the sources) is the inner product of a vector with itself, at identity when no
base point is given — "norms and inner products taken with the metric at
identity". -/
def squared_norm (m : MatInvariantMetric n d) (a : Mat n) : ℚ :=
  m.inner_product a a none

/-- `metric_matrix` (lines 141-175), matrix branch: raises
`NotImplementedError` (lines 154-157). -/
def metric_matrix (m : MatInvariantMetric n d) (base_point : Option (Mat n)) :
    Except PyError (Matrix (Fin d) (Fin d) ℚ) :=
  .error .notImplementedError

/-- `structure_constant` (lines 177-197): `⟨[x, y], z⟩`. -/
def structure_constant (m : MatInvariantMetric n d) (a b c : Mat n) : ℚ :=
  m.inner_product_at_identity (bracket a b) c

/-- Body of `dual_adjoint` (lines 199-225) once the basis provider has been
dereferenced: `-Σᵢ ⟨[eᵢ, x], y⟩ eᵢ` over the orthonormal basis. -/
def dual_adjoint_core (m : MatInvariantMetric n d) (alg : MatAlgebra n d)
    (a b : Mat n) : Mat n :=
  let basis := alg.orthonormal_basis m.metric_mat_at_identity
  Neg.neg ((basis.map (fun tan => m.structure_constant tan a b • tan)).sum)

/-- `dual_adjoint` (lines 199-225): dereferences `self.lie_algebra`
(`AttributeError` when the provider is absent), then computes
`-Σᵢ ⟨[eᵢ, x], y⟩ eᵢ`. -/
def dual_adjoint (m : MatInvariantMetric n d) (a b : Mat n) :
    Except PyError (Mat n) :=
  match m.lie_algebra with
  | none => .error .attributeError
  | some alg => .ok (m.dual_adjoint_core alg a b)

/-- Body of `connection_at_identity` (lines 227-250):
`½([x,y] − ad*(x,y) − ad*(y,x))`. -/
def connection_at_identity_core (m : MatInvariantMetric n d)
    (alg : MatAlgebra n d) (a b : Mat n) : Mat n :=
  ((1 : ℚ) / 2) • (bracket a b - m.dual_adjoint_core alg a b
    - m.dual_adjoint_core alg b a)

/-- `connection_at_identity` (lines 227-250); fails with `AttributeError`
through `dual_adjoint` when the basis provider is absent. -/
def connection_at_identity (m : MatInvariantMetric n d) (a b : Mat n) :
    Except PyError (Mat n) :=
  match m.lie_algebra with
  | none => .error .attributeError
  | some alg => .ok (m.connection_at_identity_core alg a b)

/-- Body of `curvature_at_identity` (lines 288-322):
`∇_{[x,y]} z − ∇ₓ(∇_y z) + ∇_y(∇ₓ z)`. -/
def curvature_at_identity_core (m : MatInvariantMetric n d)
    (alg : MatAlgebra n d) (a b c : Mat n) : Mat n :=
  let bracket_term := m.connection_at_identity_core alg (bracket a b) c
  let left_term := m.connection_at_identity_core alg a
    (m.connection_at_identity_core alg b c)
  let right_term := m.connection_at_identity_core alg b
    (m.connection_at_identity_core alg a c)
  bracket_term - left_term + right_term

/-- `curvature_at_identity` (lines 288-322); fails with `AttributeError`
through `dual_adjoint` when the basis provider is absent. -/
def curvature_at_identity (m : MatInvariantMetric n d) (a b c : Mat n) :
    Except PyError (Mat n) :=
  match m.lie_algebra with
  | none => .error .attributeError
  | some alg => .ok (m.curvature_at_identity_core alg a b c)

/-- Body of `sectional_curvature_at_identity` (lines 367-395):
`num = ⟨y, R(x,y)x⟩`;
`denom = squared_norm(x) * squared_norm(x) − ⟨x,y⟩²` (lines 389-392, the
first factor is `tangent_vec_a` twice);
`condition = isclose(denom, 0)`; `denom = where(condition, EPSILON, denom)`;
result `where(~condition, num/denom, 0)`. -/
def sectional_curvature_at_identity_core (m : MatInvariantMetric n d)
    (alg : MatAlgebra n d) (a b : Mat n) : ℚ :=
  let curvature := m.curvature_at_identity_core alg a b a
  let num := m.inner_product b curvature none
  let denom := m.squared_norm a * m.squared_norm a
    - (m.inner_product a b none) ^ 2
  let condition := qIsClose denom 0
  let denom2 := if condition then EPSILON else denom
  if ¬ condition then num / denom2 else 0

/-- `sectional_curvature_at_identity` (lines 367-395); fails with
`AttributeError` through `curvature_at_identity` when the basis provider is
absent. -/
def sectional_curvature_at_identity (m : MatInvariantMetric n d) (a b : Mat n) :
    Except PyError ℚ :=
  match m.lie_algebra with
  | none => .error .attributeError
  | some alg => .ok (m.sectional_curvature_at_identity_core alg a b)

/-- Following the spec's words, for comparison with the code: sectional
curvature whose denominator is `‖x‖²‖y‖² − ⟨x,y⟩²` (the code instead squares
`squared_norm(x)`); same guarded division. -/
def sectional_curvature_spec_core (m : MatInvariantMetric n d)
    (alg : MatAlgebra n d) (a b : Mat n) : ℚ :=
  let curvature := m.curvature_at_identity_core alg a b a
  let num := m.inner_product b curvature none
  let denom := m.squared_norm a * m.squared_norm b
    - (m.inner_product a b none) ^ 2
  let condition := qIsClose denom 0
  let denom2 := if condition then EPSILON else denom
  if ¬ condition then num / denom2 else 0

/-- Following the spec's words: `sectional_curvature_at_identity` with the
spec's denominator. -/
def sectional_curvature_spec (m : MatInvariantMetric n d) (a b : Mat n) :
    Except PyError ℚ :=
  match m.lie_algebra with
  | none => .error .attributeError
  | some alg => .ok (m.sectional_curvature_spec_core alg a b)

/-- Body of `curvature_derivative_at_identity` (lines 428-472), the Leibniz
expansion `∇ₓ(R(y,z)t) − R(∇ₓy, z)t − R(y, ∇ₓz)t − R(y,z)(∇ₓt)`. -/
def curvature_derivative_at_identity_core (m : MatInvariantMetric n d)
    (alg : MatAlgebra n d) (a b c e : Mat n) : Mat n :=
  let first_term := m.connection_at_identity_core alg a
    (m.curvature_at_identity_core alg b c e)
  let second_term := m.curvature_at_identity_core alg
    (m.connection_at_identity_core alg a b) c e
  let third_term := m.curvature_at_identity_core alg b
    (m.connection_at_identity_core alg a c) e
  let fourth_term := m.curvature_at_identity_core alg b c
    (m.connection_at_identity_core alg a e)
  first_term - second_term - third_term - fourth_term

/-- `curvature_derivative_at_identity` (lines 428-472); fails with
`AttributeError` when the basis provider is absent. -/
def curvature_derivative_at_identity (m : MatInvariantMetric n d)
    (a b c e : Mat n) : Except PyError (Mat n) :=
  match m.lie_algebra with
  | none => .error .attributeError
  | some alg => .ok (m.curvature_derivative_at_identity_core alg a b c e)

end MatInvariantMetric

/-- Integration schemes accepted by the injected integrator
(`'euler'`, `'group_rk2'`, `'group_rk4'`). -/
inductive StepScheme where
  | euler
  | group_rk2
  | group_rk4
deriving DecidableEq, Repr

/-- Modelled from the spec: one step of `geomstats.integrator.integrate` (the
generic fixed-step ODE stepper, an external collaborator not in the sources).
Spec section 4.4: the velocity is advanced by the named Runge-Kutta
combination of the acceleration law, and the position is advanced by "the
group's own transport law"; section 6: `integrate(velocity_law, initial_state,
n_steps, step_scheme, group) → (trajectory, times)`.  The step size is
`1/n_steps` (unit-time geodesic). -/
def integratorStep {n : ℕ} (group : MatGroup n) (accel : Mat n → Mat n)
    (scheme : StepScheme) (h : ℚ) (state : Mat n × Mat n) : Mat n × Mat n :=
  let p := state.1
  let v := state.2
  let v2 := match scheme with
    | .euler => v + h • accel v
    | .group_rk2 =>
      let k1 := accel v
      let k2 := accel (v + (h / 2) • k1)
      v + h • k2
    | .group_rk4 =>
      let k1 := accel v
      let k2 := accel (v + (h / 2) • k1)
      let k3 := accel (v + (h / 2) • k2)
      let k4 := accel (v + h • k3)
      v + (h / 6) • (k1 + (2 : ℚ) • k2 + (2 : ℚ) • k3 + k4)
  (group.transport p (h • v), v2)

/-- Modelled from the spec: the trajectory returned by
`geomstats.integrator.integrate` — the initial state followed by the iterated
steps; its final entry is used by the caller. -/
def integrateFlow {n : ℕ} (group : MatGroup n) (accel : Mat n → Mat n)
    (scheme : StepScheme) (h : ℚ) (state : Mat n × Mat n) :
    ℕ → List (Mat n × Mat n)
  | 0 => [state]
  | k + 1 =>
    state :: integrateFlow group accel scheme h
      (integratorStep group accel scheme h state) k

namespace MatInvariantMetric

variable {n d : ℕ}

/-- Body of `euler_poincarre_geodesic` (lines 712-755) once the basis provider
has been dereferenced: `lie_acceleration(v) = Σᵢ ⟨[v, eᵢ], v⟩ eᵢ`; the initial
state is `(base_point, regularize(compose(inverse(base_point), tangent_vec)))`;
the final position of the integrated flow is returned. -/
def euler_poincarre_geodesic_core (m : MatInvariantMetric n d)
    (alg : MatAlgebra n d) (tangent_vec base_point : Mat n)
    (n_steps : ℕ) (step : StepScheme) : Mat n :=
  let basis := alg.orthonormal_basis m.metric_mat_at_identity
  let lie_acceleration : Mat n → Mat n := fun vector =>
    (basis.map (fun basis_vector =>
      m.structure_constant vector basis_vector vector • basis_vector)).sum
  let left_angular_vel := m.group.compose (m.group.inverse base_point) tangent_vec
  let initial_state := (base_point, m.group.regularize left_angular_vel)
  let flow := integrateFlow m.group lie_acceleration step
    (1 / (n_steps : ℚ)) initial_state n_steps
  (flow.getLastD initial_state).1

/-- `euler_poincarre_geodesic` (lines 712-755); dereferences
`self.lie_algebra` (line 741), raising `AttributeError` when the provider is
absent. -/
def euler_poincarre_geodesic (m : MatInvariantMetric n d)
    (tangent_vec base_point : Mat n) (n_steps : ℕ) (step : StepScheme) :
    Except PyError (Mat n) :=
  match m.lie_algebra with
  | none => .error .attributeError
  | some alg =>
    .ok (m.euler_poincarre_geodesic_core alg tangent_vec base_point n_steps step)

end MatInvariantMetric

/-- The nonlinear-optimizer collaborator (`scipy.optimize.minimize` with
method `'L-BFGS-B'`, `jac=True`, spec section 6): given the scalar objective
(whose gradient the backend's `value_and_grad` supplies), the initial guess,
`maxiter` and `tol`, it returns the solution vector `res.x`. -/
structure Optimizer (n : ℕ) where
  minimize : (Mat n → ℚ) → Mat n → ℕ → ℚ → Mat n

/-- The random-number collaborator: `gs.random.rand` draws from the backend's
global generator, so it is a function of the hidden generator state, returning
the drawn array and the advanced state. -/
structure RandBackend (n : ℕ) where
  rand : ℕ → Mat n × ℕ

namespace MatInvariantMetric

variable {n d : ℕ}

/-- `euler_poincarre_log` (lines 757-815): minimizes
`‖euler_poincarre_geodesic(w, base_point, n_steps, step) − point‖²` over `w`,
starting from a random initial vector (`gs.random.rand`, line 807), then
projects `res.x` onto the tangent space at `base_point`.  The hidden generator
state is threaded explicitly: the result is the returned tangent vector
together with the advanced generator state.  The objective dereferences
`self.lie_algebra` through `euler_poincarre_geodesic` at the optimizer's first
objective evaluation, raising `AttributeError` when the provider is absent. -/
def euler_poincarre_log (m : MatInvariantMetric n d) (opt : Optimizer n)
    (rb : RandBackend n) (rngState : ℕ) (point base_point : Mat n)
    (n_steps : ℕ) (step : StepScheme) (max_iter : ℕ) (tol : ℚ) :
    Except PyError (Mat n × ℕ) :=
  match m.lie_algebra with
  | none => .error .attributeError
  | some alg =>
    let objective : Mat n → ℚ := fun velocity =>
      let delta := m.euler_poincarre_geodesic_core alg velocity base_point
        n_steps step - point
      ∑ i, ∑ j, delta i j ^ 2
    let drawn := rb.rand rngState
    let tangent_vec := drawn.1
    let resx := opt.minimize objective tangent_vec max_iter tol
    .ok (m.group.to_tangent resx base_point, drawn.2)

end MatInvariantMetric

/-- Substring test on printed names (`'marker' in group.__str__()` in
Python): `hasPrefixChars pat s` holds when `pat` is an initial segment of
`s`. -/
def hasPrefixChars : List Char → List Char → Bool
  | [], _ => true
  | _ :: _, [] => false
  | p :: ps, c :: cs => p == c && hasPrefixChars ps cs

/-- `containsSub pat s` is Python's `pat in s` on strings. -/
def containsSub (pat : List Char) : List Char → Bool
  | [] => hasPrefixChars pat []
  | c :: cs => hasPrefixChars pat (c :: cs) || containsSub pat cs

/-- The data of the group collaborator consumed by the constructors:
its dimension is the type index; `printed` is `group.__str__()`; `compose` and
`identity` witness the group's composition law (unused by the constructors
themselves). -/
structure GroupInfo (dm : ℕ) where
  printed : List Char
  compose : Vec dm → Vec dm → Vec dm
  identity : Vec dm

/-- The backend eigenvalue primitive `gs.linalg.eigvalsh` used by
`InvariantMetric.__init__` to compute the signature. -/
structure EigBackend (dm : ℕ) where
  eigvalsh : Matrix (Fin dm) (Fin dm) ℚ → List ℚ

/-- The state set up by `InvariantMetric.__init__` (lines 37-60) that the
constructor claims are about: the metric matrix at identity, the orientation
flag, and the derived signature triple. -/
structure MetricConfig (dm : ℕ) where
  metric_mat_at_identity : Matrix (Fin dm) (Fin dm) ℚ
  left_or_right : LeftOrRight
  signature : ℕ × ℕ × ℕ
deriving DecidableEq

/-- `InvariantMetric.__init__` (lines 37-60): default the metric matrix to
`gs.eye(dim)` when `None`, validate `left_or_right` (an inductive here, so
always valid), and derive the signature `(n_pos, n_null, n_neg)` from the
backend's eigenvalues (`greater 0` / `isclose 0` / `less 0` counts). -/
def invariantMetricInit (dm : ℕ) (backend : EigBackend dm)
    (metric_mat_at_identity : Option (Matrix (Fin dm) (Fin dm) ℚ))
    (left_or_right : LeftOrRight) : MetricConfig dm :=
  let metricMat := match metric_mat_at_identity with
    | none => (1 : Matrix (Fin dm) (Fin dm) ℚ)
    | some mm => mm
  let eigenvalues := backend.eigvalsh metricMat
  let n_pos := (eigenvalues.filter (fun t => decide (0 < t))).length
  let n_neg := (eigenvalues.filter (fun t => decide (t < 0))).length
  let n_null := (eigenvalues.filter (fun t => decide (qIsClose t 0))).length
  { metric_mat_at_identity := metricMat
    left_or_right := left_or_right
    signature := (n_pos, n_null, n_neg) }

/-- `BiInvariantMetric.__init__` (lines 831-843): run the parent constructor
with `metric_mat_at_identity = gs.eye(group.dim)` and the default
`left_or_right = 'left'`; then raise `ValueError` unless the group's printed
representation contains one of the markers `'SpecialOrthogonal'`, `'SO'`,
`'SpecialOrthogonal3'`. -/
def biInvariantMetricInit (dm : ℕ) (group : GroupInfo dm)
    (backend : EigBackend dm) : Except PyError (MetricConfig dm) :=
  let parent := invariantMetricInit dm backend
    (some (1 : Matrix (Fin dm) (Fin dm) ℚ)) LeftOrRight.left
  let cond := !containsSub ("SpecialOrthogonal".toList) group.printed
    && !containsSub ("SO".toList) group.printed
    && !containsSub ("SpecialOrthogonal3".toList) group.printed
  if cond then .error .valueError else .ok parent

/-! ### Concrete collaborator instances used by witnesses and counterexamples -/

/-- First basis element `E₁₁` of the affine Lie algebra
`span{E₁₁, E₁₂} ⊂ gl(2)`, the smallest non-abelian matrix Lie algebra:
`[E₁₁, E₁₂] = E₁₂`. -/
def affE1 : Mat 2 := !![1, 0; 0, 0]

/-- Second basis element `E₁₂` of the affine Lie algebra. -/
def affE2 : Mat 2 := !![0, 1; 0, 0]

/-- A basis provider for the affine algebra.  Its reshape function returns the
constant weight 1, under which the basis `[E₁₁, E₁₂]` is orthonormal for the
resulting Hadamard inner product. -/
def affAlgebra : MatAlgebra 2 2 where
  orthonormal_basis := fun _ => [affE1, affE2]
  reshape_metric_matrix := fun _ => fun _ _ => 1

/-- A matrix-group collaborator on `2 × 2` matrices: matrix composition,
transpose inverse, identity regularization, identity translation maps,
additive transport, identity tangent projection. -/
def affGroup : MatGroup 2 where
  compose := fun a b => a * b
  inverse := fun a => a.transpose
  regularize := fun a => a
  tangent_translation_map := fun _ _ _ v => v
  transport := fun p v => p + v
  to_tangent := fun v _ => v

/-- The invariant metric on the affine group instance: identity metric matrix
at identity, left-invariant, with the affine basis provider. -/
def affMetric : MatInvariantMetric 2 2 where
  group := affGroup
  lie_algebra := some affAlgebra
  metric_mat_at_identity := 1
  left_or_right := .left

/-- The same metric configuration constructed without a Lie-algebra basis
provider (`algebra=None` in the constructor). -/
def noAlgMetric : MatInvariantMetric 2 2 :=
  { affMetric with lie_algebra := none }

/-- An optimizer collaborator instance that returns its initial guess (a
possible L-BFGS-B outcome). -/
def affOptimizer : Optimizer 2 where
  minimize := fun _ x0 _ _ => x0

/-- A random backend instance: state `s` draws the constant matrix `s` and
advances the state to `s + 1`. -/
def affRand : RandBackend 2 where
  rand := fun s => (fun _ _ => (s : ℚ), s + 1)

/-- A Euclidean-like vector-group collaborator in dimension 2: identity 0,
additive composition, trivial regularization, identity translation maps and
identity translation Jacobian. -/
def trivVecGroup : VecGroup 2 where
  identity := fun _ => 0
  compose := fun a b => a + b
  inverse := fun a => -a
  regularize := fun x => x
  regularize_tangent_vec_at_identity := fun x => x
  tangent_translation_map := fun _ _ _ v => v
  jacobian_translation := fun _ _ => 1

/-- A backend instance whose `sqrtm` and `inv` are the identity (correct on
the identity matrix, the only input these witnesses use). -/
def trivVecBackend : VecBackend 2 where
  sqrtm := fun mm => mm
  inv := fun mm => mm

/-- A vector invariant metric over `trivVecGroup` with identity metric matrix
and no basis provider. -/
def trivVecMetric : VecInvariantMetric 2 where
  group := trivVecGroup
  lie_algebra := none
  metric_mat_at_identity := 1
  left_or_right := .left
  backend := trivVecBackend

/-- A backend instance returning the inverse `diag(1, 1/4)` and principal
square root `diag(1, 1/2)` used with the metric matrix `diag(1, 4)`. -/
def diagBackend : VecBackend 2 where
  sqrtm := fun _ => !![1, 0; 0, (1 : ℚ) / 2]
  inv := fun _ => !![1, 0; 0, (1 : ℚ) / 4]

/-- The Euclidean-like vector metric with metric matrix `diag(1, 4)`. -/
def diagMetric : VecInvariantMetric 2 where
  group := trivVecGroup
  lie_algebra := none
  metric_mat_at_identity := !![1, 0; 0, 4]
  left_or_right := .left
  backend := diagBackend

/-- A one-dimensional Euclidean-like vector-group collaborator. -/
def lineGroup : VecGroup 1 where
  identity := fun _ => 0
  compose := fun a b => a + b
  inverse := fun a => -a
  regularize := fun x => x
  regularize_tangent_vec_at_identity := fun x => x
  tangent_translation_map := fun _ _ _ v => v
  jacobian_translation := fun _ _ => 1

/-- A one-dimensional backend instance (identity `sqrtm` and `inv`, correct on
the identity metric matrix). -/
def lineBackend : VecBackend 1 where
  sqrtm := fun mm => mm
  inv := fun mm => mm

/-- The one-dimensional Euclidean-like left-invariant metric. -/
def lineMetric : VecInvariantMetric 1 where
  group := lineGroup
  lie_algebra := none
  metric_mat_at_identity := 1
  left_or_right := .left
  backend := lineBackend

/-- A group collaborator that is a plain translation (vector) group — its
composition is componentwise addition, so it is not a rotation group — whose
printed representation `"SOmeVectorGroup"` happens to contain the marker
`'SO'`. -/
def soNamedVectorGroup : GroupInfo 2 where
  printed := "SOmeVectorGroup".toList
  compose := fun a b => a + b
  identity := fun _ => 0

/-- A rotation-group collaborator tag: printed representation
`"SpecialOrthogonal(3)"`. -/
def rotationGroupInfo : GroupInfo 3 where
  printed := "SpecialOrthogonal(3)".toList
  compose := fun a b => a + b
  identity := fun _ => 0

/-- An eigenvalue backend for `2 × 2` inputs, returning `[1, 1]` (the
eigenvalues of the identity matrix, the only input the witnesses use). -/
def eyeEig2 : EigBackend 2 where
  eigvalsh := fun _ => [1, 1]

/-- An eigenvalue backend for `3 × 3` inputs, returning `[1, 1, 1]`. -/
def eyeEig3 : EigBackend 3 where
  eigvalsh := fun _ => [1, 1, 1]


/-- A random backend whose draw depends on the state only through its parity:
states `0` and `2` produce identical draws and identical successor states. -/
def collRand : RandBackend 2 where
  rand := fun s => (fun _ _ => ((s % 2 : ℕ) : ℚ), s % 2 + 1)

namespace MatInvariantMetric

variable {n d : ℕ}

/-- Proof-side view of the matrix-branch inner product: the Hadamard sum with
the effective elementwise weight (the reshaped metric when it applies, the
constant weight 1 otherwise). -/
def weightAux (m : MatInvariantMetric n d) : Mat n :=
  match m.lie_algebra with
  | some alg =>
    if isDiagonal m.metric_mat_at_identity then
      alg.reshape_metric_matrix m.metric_mat_at_identity
    else fun _ _ => 1
  | none => fun _ _ => 1

lemma inner_product_at_identity_eq_weighted (m : MatInvariantMetric n d)
    (a b : Mat n) :
    m.inner_product_at_identity a b
      = ∑ i, ∑ j, a i j * b i j * m.weightAux i j := by
  unfold inner_product_at_identity weightAux
  cases h : m.lie_algebra with
  | none => simp
  | some alg =>
    by_cases hdiag : isDiagonal m.metric_mat_at_identity
    · simp [hdiag]
    · simp [hdiag]

lemma inner_smul_left (m : MatInvariantMetric n d) (c : ℚ) (a b : Mat n) :
    m.inner_product_at_identity (c • a) b = c * m.inner_product_at_identity a b := by
  rw [inner_product_at_identity_eq_weighted, inner_product_at_identity_eq_weighted,
    Finset.mul_sum]
  refine Finset.sum_congr rfl fun i _ => ?_
  rw [Finset.mul_sum]
  refine Finset.sum_congr rfl fun j _ => ?_
  simp [Matrix.smul_apply]
  ring

lemma inner_smul_right (m : MatInvariantMetric n d) (c : ℚ) (a b : Mat n) :
    m.inner_product_at_identity a (c • b) = c * m.inner_product_at_identity a b := by
  rw [inner_product_at_identity_eq_weighted, inner_product_at_identity_eq_weighted,
    Finset.mul_sum]
  refine Finset.sum_congr rfl fun i _ => ?_
  rw [Finset.mul_sum]
  refine Finset.sum_congr rfl fun j _ => ?_
  simp [Matrix.smul_apply]
  ring

lemma inner_zero_left (m : MatInvariantMetric n d) (b : Mat n) :
    m.inner_product_at_identity 0 b = 0 := by
  rw [inner_product_at_identity_eq_weighted]
  simp

lemma inner_zero_right (m : MatInvariantMetric n d) (a : Mat n) :
    m.inner_product_at_identity a 0 = 0 := by
  rw [inner_product_at_identity_eq_weighted]
  simp

lemma bracket_smul_left (c : ℚ) (a b : Mat n) :
    bracket (c • a) b = c • bracket a b := by
  unfold bracket
  rw [Matrix.smul_mul, Matrix.mul_smul, smul_sub]

lemma bracket_smul_right (c : ℚ) (a b : Mat n) :
    bracket a (c • b) = c • bracket a b := by
  unfold bracket
  rw [Matrix.smul_mul, Matrix.mul_smul, smul_sub]

lemma bracket_zero_left (b : Mat n) : bracket 0 b = 0 := by
  simp [bracket]

lemma bracket_zero_right (a : Mat n) : bracket a 0 = 0 := by
  simp [bracket]

lemma bracket_self (a : Mat n) : bracket a a = 0 := sub_self _

lemma bracket_antisym (a b : Mat n) : bracket b a = - bracket a b := by
  unfold bracket
  rw [neg_sub]

lemma structure_constant_smul_mid (m : MatInvariantMetric n d) (e : Mat n)
    (c : ℚ) (a b : Mat n) :
    m.structure_constant e (c • a) b = c * m.structure_constant e a b := by
  unfold structure_constant
  rw [bracket_smul_right, inner_smul_left]

lemma structure_constant_smul_right (m : MatInvariantMetric n d) (e : Mat n)
    (c : ℚ) (a b : Mat n) :
    m.structure_constant e a (c • b) = c * m.structure_constant e a b := by
  unfold structure_constant
  rw [inner_smul_right]

lemma structure_constant_zero_mid (m : MatInvariantMetric n d) (e b : Mat n) :
    m.structure_constant e 0 b = 0 := by
  unfold structure_constant
  rw [bracket_zero_right, inner_zero_left]

lemma structure_constant_zero_right (m : MatInvariantMetric n d) (e a : Mat n) :
    m.structure_constant e a 0 = 0 := by
  unfold structure_constant
  rw [inner_zero_right]

lemma list_map_smul_sum (l : List (Mat n)) (f : Mat n → ℚ) (c : ℚ) :
    (l.map fun e => (c * f e) • e).sum = c • (l.map fun e => f e • e).sum := by
  induction l with
  | nil => simp
  | cons x xs ih =>
    rw [List.map_cons, List.sum_cons, ih, mul_smul, List.map_cons,
      List.sum_cons, smul_add]

lemma list_map_zero_smul_sum (l : List (Mat n)) (f : Mat n → ℚ)
    (h : ∀ e ∈ l, f e = 0) :
    (l.map fun e => f e • e).sum = 0 := by
  induction l with
  | nil => simp
  | cons x xs ih =>
    have hx := h x (by simp)
    simp [hx, ih fun e he => h e (by simp [he])]

lemma dual_adjoint_core_smul_left (m : MatInvariantMetric n d)
    (alg : MatAlgebra n d) (c : ℚ) (a b : Mat n) :
    m.dual_adjoint_core alg (c • a) b = c • m.dual_adjoint_core alg a b := by
  simp only [dual_adjoint_core]
  have hfun : (fun tan => m.structure_constant tan (c • a) b • tan)
      = fun tan => (c * m.structure_constant tan a b) • tan := by
    funext tan
    rw [structure_constant_smul_mid]
  rw [hfun, list_map_smul_sum, smul_neg]

lemma dual_adjoint_core_smul_right (m : MatInvariantMetric n d)
    (alg : MatAlgebra n d) (c : ℚ) (a b : Mat n) :
    m.dual_adjoint_core alg a (c • b) = c • m.dual_adjoint_core alg a b := by
  simp only [dual_adjoint_core]
  have hfun : (fun tan => m.structure_constant tan a (c • b) • tan)
      = fun tan => (c * m.structure_constant tan a b) • tan := by
    funext tan
    rw [structure_constant_smul_right]
  rw [hfun, list_map_smul_sum, smul_neg]

lemma dual_adjoint_core_zero_left (m : MatInvariantMetric n d)
    (alg : MatAlgebra n d) (b : Mat n) :
    m.dual_adjoint_core alg 0 b = 0 := by
  simp only [dual_adjoint_core]
  rw [list_map_zero_smul_sum _ _ fun e _ => m.structure_constant_zero_mid e b]
  simp

lemma dual_adjoint_core_zero_right (m : MatInvariantMetric n d)
    (alg : MatAlgebra n d) (a : Mat n) :
    m.dual_adjoint_core alg a 0 = 0 := by
  simp only [dual_adjoint_core]
  rw [list_map_zero_smul_sum _ _ fun e _ => m.structure_constant_zero_right e a]
  simp

lemma connection_core_smul_left (m : MatInvariantMetric n d)
    (alg : MatAlgebra n d) (c : ℚ) (a b : Mat n) :
    m.connection_at_identity_core alg (c • a) b
      = c • m.connection_at_identity_core alg a b := by
  unfold connection_at_identity_core
  rw [bracket_smul_left, dual_adjoint_core_smul_left, dual_adjoint_core_smul_right,
    ← smul_sub, ← smul_sub, smul_comm]

lemma connection_core_smul_right (m : MatInvariantMetric n d)
    (alg : MatAlgebra n d) (c : ℚ) (a b : Mat n) :
    m.connection_at_identity_core alg a (c • b)
      = c • m.connection_at_identity_core alg a b := by
  unfold connection_at_identity_core
  rw [bracket_smul_right, dual_adjoint_core_smul_right, dual_adjoint_core_smul_left,
    ← smul_sub, ← smul_sub, smul_comm]

lemma connection_core_zero_left (m : MatInvariantMetric n d)
    (alg : MatAlgebra n d) (b : Mat n) :
    m.connection_at_identity_core alg 0 b = 0 := by
  unfold connection_at_identity_core
  rw [bracket_zero_left, dual_adjoint_core_zero_left, dual_adjoint_core_zero_right]
  simp

lemma connection_core_neg_left (m : MatInvariantMetric n d)
    (alg : MatAlgebra n d) (a b : Mat n) :
    m.connection_at_identity_core alg (-a) b
      = - m.connection_at_identity_core alg a b := by
  rw [← neg_one_smul ℚ a, connection_core_smul_left, neg_one_smul]

lemma curvature_core_antisym (m : MatInvariantMetric n d)
    (alg : MatAlgebra n d) (a b c : Mat n) :
    m.curvature_at_identity_core alg b a c
      = - m.curvature_at_identity_core alg a b c := by
  unfold curvature_at_identity_core
  rw [bracket_antisym, connection_core_neg_left]
  abel

lemma curvature_core_dependent (m : MatInvariantMetric n d)
    (alg : MatAlgebra n d) (x : Mat n) (lam : ℚ) :
    m.curvature_at_identity_core alg x (lam • x) x = 0 := by
  unfold curvature_at_identity_core
  rw [bracket_smul_right, bracket_self, smul_zero, connection_core_zero_left,
    connection_core_smul_left, connection_core_smul_right,
    connection_core_smul_left]
  abel

end MatInvariantMetric

/-! ### Claim theorems -/

lemma eye_isDiagonal {k : ℕ} : isDiagonal (1 : Matrix (Fin k) (Fin k) ℚ) :=
  fun _ _ hij => Matrix.one_apply_ne hij

set_option maxHeartbeats 2000000 in
/-- C1: the claim states `sectional_curvature_at_identity(x, y)` divides
`⟨R(x,y)x, y⟩` by `‖x‖²‖y‖² − ⟨x,y⟩²`.  The code (lines 389-392) instead
divides by `squared_norm(x) * squared_norm(x) − ⟨x,y⟩² = ‖x‖⁴ − ⟨x,y⟩²`.
On the affine algebra with `x = E₁₁`, `y = 2·E₁₂` (orthonormal `E₁₁, E₁₂`),
the code returns `−4` (denominator `‖x‖⁴ − 0 = 1`) while the claim's formula
returns the true hyperbolic sectional curvature `−1` (denominator
`‖x‖²‖y‖² − 0 = 4`). -/
theorem C1_sectional_denominator_code_bug :
    affMetric.sectional_curvature_at_identity affE1 ((2 : ℚ) • affE2)
      = Except.ok (-4)
    ∧ affMetric.sectional_curvature_spec affE1 ((2 : ℚ) • affE2)
      = Except.ok (-1) := by
  constructor
  · rw [MatInvariantMetric.sectional_curvature_at_identity]
    norm_num [affMetric, MatInvariantMetric.sectional_curvature_at_identity_core,
      MatInvariantMetric.curvature_at_identity_core,
      MatInvariantMetric.connection_at_identity_core,
      MatInvariantMetric.dual_adjoint_core,
      MatInvariantMetric.structure_constant,
      MatInvariantMetric.inner_product_at_identity,
      MatInvariantMetric.inner_product,
      MatInvariantMetric.squared_norm,
      affAlgebra, affGroup, eye_isDiagonal,
      bracket, affE1, affE2,
      qIsClose, RTOL, ATOL, EPSILON,
      Matrix.mul_apply, Matrix.smul_apply, Matrix.sub_apply, Matrix.add_apply,
      Matrix.neg_apply, Fin.sum_univ_succ]
  · rw [MatInvariantMetric.sectional_curvature_spec]
    norm_num [affMetric, MatInvariantMetric.sectional_curvature_spec_core,
      MatInvariantMetric.curvature_at_identity_core,
      MatInvariantMetric.connection_at_identity_core,
      MatInvariantMetric.dual_adjoint_core,
      MatInvariantMetric.structure_constant,
      MatInvariantMetric.inner_product_at_identity,
      MatInvariantMetric.inner_product,
      MatInvariantMetric.squared_norm,
      affAlgebra, affGroup, eye_isDiagonal,
      bracket, affE1, affE2,
      qIsClose, RTOL, ATOL, EPSILON,
      Matrix.mul_apply, Matrix.smul_apply, Matrix.sub_apply, Matrix.add_apply,
      Matrix.neg_apply, Fin.sum_univ_succ]

/-- C2: for linearly dependent tangent vectors `x` and `y = λ·x`, on any
matrix invariant metric whose Lie-algebra basis provider is present,
`sectional_curvature_at_identity` returns exactly `0` and raises no error:
the curvature `R(x, λx)x` vanishes identically, so the numerator is `0`, and
both branches of the guarded division return `0`. -/
theorem C2_sectional_dependent_zero {n d : ℕ} (m : MatInvariantMetric n d)
    (alg : MatAlgebra n d) (h : m.lie_algebra = some alg) (x : Mat n)
    (lam : ℚ) :
    m.sectional_curvature_at_identity x (lam • x) = Except.ok 0 := by
  simp only [MatInvariantMetric.sectional_curvature_at_identity, h]
  congr 1
  simp only [MatInvariantMetric.sectional_curvature_at_identity_core,
    MatInvariantMetric.curvature_core_dependent,
    MatInvariantMetric.inner_product]
  rw [MatInvariantMetric.inner_zero_right]
  split_ifs <;> simp

/-- Witness for C2 at the concrete affine-algebra metric, with `x = E₁₁` and
`λ = 3`. -/
theorem C2_witness :
    affMetric.sectional_curvature_at_identity affE1 ((3 : ℚ) • affE1)
      = Except.ok 0 :=
  C2_sectional_dependent_zero affMetric affAlgebra rfl affE1 3

/-- C8: the curvature tensor at identity is antisymmetric in its first two
arguments: `curvature_at_identity(x, y, z) = -curvature_at_identity(y, x, z)`
(as `Except` values: when the basis provider is absent both sides are the same
`AttributeError`). -/
theorem C8_curvature_antisym {n d : ℕ} (m : MatInvariantMetric n d)
    (x y z : Mat n) :
    m.curvature_at_identity x y z
      = Except.map (fun w => -w) (m.curvature_at_identity y x z) := by
  cases h : m.lie_algebra with
  | none => simp [MatInvariantMetric.curvature_at_identity, h, Except.map]
  | some alg =>
    have hanti := MatInvariantMetric.curvature_core_antisym m alg y x z
    simp [MatInvariantMetric.curvature_at_identity, h, Except.map, hanti]

lemma integratorStep_fixed {n : ℕ} (g : MatGroup n) (accel : Mat n → Mat n)
    (scheme : StepScheme) (h : ℚ) (p : Mat n)
    (haccel : accel 0 = 0) (htrans : g.transport p 0 = p) :
    integratorStep g accel scheme h (p, 0) = (p, 0) := by
  cases scheme <;>
    simp [integratorStep, haccel, htrans, smul_zero, add_zero]

lemma integrateFlow_fixed {n : ℕ} (g : MatGroup n) (accel : Mat n → Mat n)
    (scheme : StepScheme) (h : ℚ) (s : Mat n × Mat n) (k : ℕ)
    (hs : integratorStep g accel scheme h s = s) :
    (integrateFlow g accel scheme h s k).getLastD s = s := by
  induction k with
  | zero => simp [integrateFlow]
  | succ k ih =>
    rw [integrateFlow, hs, List.getLastD_cons]
    exact ih

/-- C7: `euler_poincarre_geodesic` with the zero tangent vector returns the
base point unchanged, for every number of integration steps and every scheme,
whenever the group collaborator satisfies its contract at the base point:
translating the zero vector to identity and regularizing gives zero, and
transporting the base point along the zero velocity leaves it fixed.  The
Euler–Poincaré acceleration vanishes at zero velocity, so the integration
state stays `(base_point, 0)` forever. -/
theorem C7_geodesic_zero_velocity {n d : ℕ} (m : MatInvariantMetric n d)
    (alg : MatAlgebra n d) (h : m.lie_algebra = some alg) (p : Mat n)
    (n_steps : ℕ) (scheme : StepScheme)
    (hcomp : m.group.regularize (m.group.compose (m.group.inverse p) 0) = 0)
    (htrans : m.group.transport p 0 = p) :
    m.euler_poincarre_geodesic 0 p n_steps scheme = Except.ok p := by
  simp only [MatInvariantMetric.euler_poincarre_geodesic, h,
    MatInvariantMetric.euler_poincarre_geodesic_core, hcomp]
  have haccel : ((alg.orthonormal_basis m.metric_mat_at_identity).map
      (fun basis_vector =>
        m.structure_constant (0 : Mat n) basis_vector 0 • basis_vector)).sum
      = (0 : Mat n) := by
    refine MatInvariantMetric.list_map_zero_smul_sum _ _ fun e _ => ?_
    unfold MatInvariantMetric.structure_constant
    rw [MatInvariantMetric.bracket_zero_left, MatInvariantMetric.inner_zero_left]
  have hstep := integratorStep_fixed m.group
    (fun vector => ((alg.orthonormal_basis m.metric_mat_at_identity).map
      (fun basis_vector =>
        m.structure_constant vector basis_vector vector • basis_vector)).sum)
    scheme (1 / (n_steps : ℚ)) p haccel htrans
  rw [integrateFlow_fixed m.group _ scheme _ (p, 0) n_steps hstep]

/-- Witness for C7 at the affine-algebra metric, base point the identity
matrix, 5 integration steps with the `group_rk4` scheme. -/
theorem C7_witness :
    affMetric.euler_poincarre_geodesic 0 1 5 StepScheme.group_rk4
      = Except.ok 1 :=
  C7_geodesic_zero_velocity affMetric affAlgebra rfl 1 5 StepScheme.group_rk4
    (by simp [affMetric, affGroup]) (by simp [affMetric, affGroup])

/-- C10: when the metric is constructed without a Lie-algebra basis provider
(`algebra=None`), `dual_adjoint` and every operation that calls it
(`connection_at_identity`, `curvature_at_identity`,
`sectional_curvature_at_identity`, `curvature_derivative_at_identity`,
`euler_poincarre_geodesic`) fail with `AttributeError`, while the
inner product (guarded, line 98-99) still returns the plain Hadamard sum, and
the vector-type inner-product / metric-matrix / closed-form exp/log operations
do not depend on the provider at all. -/
theorem C10_absent_algebra_behavior {n d : ℕ} (m : MatInvariantMetric n d)
    (h : m.lie_algebra = none) (vm : VecInvariantMetric d)
    (hv : vm.lie_algebra = none)
    (a b c e p : Mat n) (n_steps : ℕ) (scheme : StepScheme)
    (u v q : Vec d) :
    m.dual_adjoint a b = Except.error PyError.attributeError
    ∧ m.connection_at_identity a b = Except.error PyError.attributeError
    ∧ m.curvature_at_identity a b c = Except.error PyError.attributeError
    ∧ m.sectional_curvature_at_identity a b = Except.error PyError.attributeError
    ∧ m.curvature_derivative_at_identity a b c e
        = Except.error PyError.attributeError
    ∧ m.euler_poincarre_geodesic a p n_steps scheme
        = Except.error PyError.attributeError
    ∧ m.inner_product_at_identity a b = ∑ i, ∑ j, a i j * b i j
    ∧ vm.inner_product u v none
        = ({ vm with lie_algebra := some () } : VecInvariantMetric d).inner_product
            u v none
    ∧ vm.inner_product u v (some q)
        = ({ vm with lie_algebra := some () } : VecInvariantMetric d).inner_product
            u v (some q)
    ∧ vm.metric_matrix (some q)
        = ({ vm with lie_algebra := some () } : VecInvariantMetric d).metric_matrix
            (some q)
    ∧ vm.exp_from_identity u
        = ({ vm with lie_algebra := some () } : VecInvariantMetric d).exp_from_identity u
    ∧ vm.exp u (some q)
        = ({ vm with lie_algebra := some () } : VecInvariantMetric d).exp u (some q)
    ∧ vm.log_from_identity u
        = ({ vm with lie_algebra := some () } : VecInvariantMetric d).log_from_identity u := by
  refine ⟨?_, ?_, ?_, ?_, ?_, ?_, ?_, rfl, rfl, rfl, rfl, rfl, rfl⟩
  · simp [MatInvariantMetric.dual_adjoint, h]
  · simp [MatInvariantMetric.connection_at_identity, h]
  · simp [MatInvariantMetric.curvature_at_identity, h]
  · simp [MatInvariantMetric.sectional_curvature_at_identity, h]
  · simp [MatInvariantMetric.curvature_derivative_at_identity, h]
  · simp [MatInvariantMetric.euler_poincarre_geodesic, h]
  · simp [MatInvariantMetric.inner_product_at_identity, h]

/-- Witness for C10 at the concrete provider-less metric `noAlgMetric` and the
provider-less vector metric `trivVecMetric`. -/
theorem C10_witness :
    noAlgMetric.dual_adjoint affE1 affE2 = Except.error PyError.attributeError
    ∧ noAlgMetric.connection_at_identity affE1 affE2
        = Except.error PyError.attributeError
    ∧ noAlgMetric.curvature_at_identity affE1 affE2 affE1
        = Except.error PyError.attributeError
    ∧ noAlgMetric.sectional_curvature_at_identity affE1 affE2
        = Except.error PyError.attributeError
    ∧ noAlgMetric.curvature_derivative_at_identity affE1 affE2 affE1 affE2
        = Except.error PyError.attributeError
    ∧ noAlgMetric.euler_poincarre_geodesic affE1 1 7 StepScheme.euler
        = Except.error PyError.attributeError
    ∧ noAlgMetric.inner_product_at_identity affE1 affE2
        = ∑ i, ∑ j, affE1 i j * affE2 i j
    ∧ trivVecMetric.inner_product ![1, 0] ![0, 1] none
        = ({ trivVecMetric with lie_algebra := some () } : VecInvariantMetric 2).inner_product
            ![1, 0] ![0, 1] none
    ∧ trivVecMetric.inner_product ![1, 0] ![0, 1] (some ![2, 3])
        = ({ trivVecMetric with lie_algebra := some () } : VecInvariantMetric 2).inner_product
            ![1, 0] ![0, 1] (some ![2, 3])
    ∧ trivVecMetric.metric_matrix (some ![2, 3])
        = ({ trivVecMetric with lie_algebra := some () } : VecInvariantMetric 2).metric_matrix
            (some ![2, 3])
    ∧ trivVecMetric.exp_from_identity ![1, 0]
        = ({ trivVecMetric with lie_algebra := some () } : VecInvariantMetric 2).exp_from_identity
            ![1, 0]
    ∧ trivVecMetric.exp ![1, 0] (some ![2, 3])
        = ({ trivVecMetric with lie_algebra := some () } : VecInvariantMetric 2).exp
            ![1, 0] (some ![2, 3])
    ∧ trivVecMetric.log_from_identity ![1, 0]
        = ({ trivVecMetric with lie_algebra := some () } : VecInvariantMetric 2).log_from_identity
            ![1, 0] :=
  C10_absent_algebra_behavior noAlgMetric rfl trivVecMetric rfl
    affE1 affE2 affE1 affE2 1 7 StepScheme.euler ![1, 0] ![0, 1] ![2, 3]

/-- C3: `inner_product(u, v, base_point)`.  With `base_point = None` both
point-type configurations delegate to `inner_product_at_identity`.  With a
base point, the matrix-type path translates both vectors to identity with the
inverse tangent-translation map and delegates (lines 133-139).  The
vector-type path delegates to the base class (line 127-131), which evaluates
the pulled-back form `J⁻ᵀ M J⁻¹`; under the group collaborator's contract —
the base point is regular and the inverse tangent-translation map is
multiplication by the inverse translation Jacobian — this equals
`inner_product_at_identity` of the two translated vectors. -/
theorem C3_inner_product_delegation {d n dd : ℕ} (vm : VecInvariantMetric d)
    (mm : MatInvariantMetric n dd) (a b : Vec d) (x y : Mat n) (p : Vec d)
    (q : Mat n)
    (hregp : vm.group.regularize p = p)
    (htt : ∀ w, vm.group.tangent_translation_map p vm.left_or_right true w
        = (vm.backend.inv
            (vm.group.jacobian_translation p vm.left_or_right)).mulVec w) :
    vm.inner_product a b none = vm.inner_product_at_identity a b
    ∧ mm.inner_product x y none = mm.inner_product_at_identity x y
    ∧ mm.inner_product x y (some q)
        = mm.inner_product_at_identity
            (mm.group.tangent_translation_map q mm.left_or_right true x)
            (mm.group.tangent_translation_map q mm.left_or_right true y)
    ∧ vm.inner_product a b (some p)
        = vm.inner_product_at_identity
            (vm.group.tangent_translation_map p vm.left_or_right true a)
            (vm.group.tangent_translation_map p vm.left_or_right true b) := by
  refine ⟨rfl, rfl, rfl, ?_⟩
  simp only [VecInvariantMetric.inner_product,
    VecInvariantMetric.riemannian_metric_inner_product,
    VecInvariantMetric.metric_matrix, VecInvariantMetric.inner_product_at_identity,
    hregp, htt]
  rw [← Matrix.vecMul_vecMul, ← Matrix.vecMul_vecMul, Matrix.vecMul_transpose,
    ← Matrix.dotProduct_mulVec]

/-- Witness for C3 at the trivial Euclidean-like vector metric (identity
translation maps and identity Jacobian) and the affine matrix metric. -/
theorem C3_witness :
    trivVecMetric.inner_product ![1, 2] ![3, 4] none
      = trivVecMetric.inner_product_at_identity ![1, 2] ![3, 4]
    ∧ affMetric.inner_product affE1 affE2 none
      = affMetric.inner_product_at_identity affE1 affE2
    ∧ affMetric.inner_product affE1 affE2 (some 1)
      = affMetric.inner_product_at_identity
          (affMetric.group.tangent_translation_map 1 affMetric.left_or_right true affE1)
          (affMetric.group.tangent_translation_map 1 affMetric.left_or_right true affE2)
    ∧ trivVecMetric.inner_product ![1, 2] ![3, 4] (some ![5, 6])
      = trivVecMetric.inner_product_at_identity
          (trivVecMetric.group.tangent_translation_map ![5, 6]
            trivVecMetric.left_or_right true ![1, 2])
          (trivVecMetric.group.tangent_translation_map ![5, 6]
            trivVecMetric.left_or_right true ![3, 4]) :=
  C3_inner_product_delegation trivVecMetric affMetric ![1, 2] ![3, 4]
    affE1 affE2 ![5, 6] 1 rfl
    (fun w => by simp [trivVecMetric, trivVecGroup, trivVecBackend,
      Matrix.one_mulVec])

/-- C9: on a Euclidean-like vector group (trivial regularization) with metric
matrix `diag(1, 4)`, `log_from_identity([2, 4]) = [2, 2]`: the closed-form log
multiplies the point by the principal square root of the inverse metric
matrix.  The hypotheses pin the injected backend's values at the two inputs
used; the first two conjuncts verify that those values are the genuine inverse
(`N·M = 1`) and principal square root (`S·S = N`, entrywise nonnegative). -/
theorem C9_log_from_identity_diag (g : VecGroup 2) (be : VecBackend 2)
    (hreg : ∀ v, g.regularize v = v)
    (hregtan : ∀ v, g.regularize_tangent_vec_at_identity v = v)
    (hinv : be.inv (!![1, 0; 0, 4]) = !![1, 0; 0, (1 : ℚ) / 4])
    (hsqrt : be.sqrtm (!![1, 0; 0, (1 : ℚ) / 4]) = !![1, 0; 0, (1 : ℚ) / 2]) :
    (!![1, 0; 0, (1 : ℚ) / 4]) * (!![1, 0; 0, 4]) = 1
    ∧ (!![1, 0; 0, (1 : ℚ) / 2]) * (!![1, 0; 0, (1 : ℚ) / 2])
        = !![1, 0; 0, (1 : ℚ) / 4]
    ∧ (∀ i j, 0 ≤ (!![1, 0; 0, (1 : ℚ) / 2]) i j)
    ∧ ({ group := g, lie_algebra := none,
         metric_mat_at_identity := !![1, 0; 0, 4],
         left_or_right := .left, backend := be } :
          VecInvariantMetric 2).log_from_identity ![2, 4] = ![2, 2] := by
  refine ⟨?_, ?_, ?_, ?_⟩
  · funext i j
    fin_cases i <;> fin_cases j <;>
      norm_num [Matrix.mul_apply, Matrix.one_apply, Fin.sum_univ_succ]
  · funext i j
    fin_cases i <;> fin_cases j <;>
      norm_num [Matrix.mul_apply, Fin.sum_univ_succ]
  · intro i j
    fin_cases i <;> fin_cases j <;> norm_num
  · simp only [VecInvariantMetric.log_from_identity,
      VecInvariantMetric.left_log_from_identity, hreg, hinv, hsqrt, hregtan]
    funext i
    fin_cases i <;>
      norm_num [Matrix.vecMul, Matrix.dotProduct, Fin.sum_univ_succ]

/-- Witness for C9 at the concrete `diagMetric` (trivial group, backend
returning the inverse and square root above). -/
theorem C9_witness :
    ({ group := trivVecGroup, lie_algebra := none,
       metric_mat_at_identity := !![1, 0; 0, 4],
       left_or_right := .left, backend := diagBackend } :
        VecInvariantMetric 2).log_from_identity ![2, 4] = ![2, 2] :=
  (C9_log_from_identity_diag trivVecGroup diagBackend (fun _ => rfl)
    (fun _ => rfl) rfl rfl).2.2.2

/-- C5 amended: the claim holds once two tolerances are accounted for.
Parts 1-2 (`exp_from_identity` dispatch, lines 563-571) hold under the
collaborator contract that `regularize` is idempotent and that `inverse`
returns regularized points (the code re-regularizes the returned value).
Parts 3-4 (`exp` at a base point, lines 599-613) hold for a regular base point
that is NOT within `gs.allclose` tolerance of the identity — not merely
"not equal to" it, as the claim says (see the counterexample). -/
theorem C5_exp_structure {d : ℕ} (m : VecInvariantMetric d) (v p : Vec d)
    (hreg2 : ∀ x, m.group.regularize (m.group.regularize x)
        = m.group.regularize x)
    (hreginv : ∀ x, m.group.regularize (m.group.inverse x) = m.group.inverse x)
    (hregp : m.group.regularize p = p)
    (hfar : ¬ vAllClose p m.group.identity) :
    (m.left_or_right = .left →
      m.exp_from_identity v = m.left_exp_from_identity v)
    ∧ (m.left_or_right = .right →
      m.exp_from_identity v = m.group.inverse (m.left_exp_from_identity (-v)))
    ∧ (m.left_or_right = .left →
      m.exp v (some p) = m.group.regularize (m.group.compose p
        (m.exp_from_identity
          (m.group.tangent_translation_map p m.left_or_right true v))))
    ∧ (m.left_or_right = .right →
      m.exp v (some p) = m.group.regularize (m.group.compose
        (m.exp_from_identity
          (m.group.tangent_translation_map p m.left_or_right true v)) p)) := by
  refine ⟨?_, ?_, ?_, ?_⟩
  · intro hl
    simp only [VecInvariantMetric.exp_from_identity, hl,
      VecInvariantMetric.left_exp_from_identity]
    exact hreg2 _
  · intro hr
    simp only [VecInvariantMetric.exp_from_identity, hr]
    exact hreginv _
  · intro hl
    simp only [VecInvariantMetric.exp, hregp, hl]
    rw [if_neg hfar]
  · intro hr
    simp only [VecInvariantMetric.exp, hregp, hr]
    rw [if_neg hfar]

/-- Witness for C5 at the one-dimensional Euclidean-like left-invariant
metric and base point `[1]` (not within tolerance of the identity `[0]`). -/
theorem C5_witness :
    lineMetric.exp_from_identity ![1] = lineMetric.left_exp_from_identity ![1]
    ∧ lineMetric.exp ![1] (some ![1])
      = lineMetric.group.regularize (lineMetric.group.compose ![1]
          (lineMetric.exp_from_identity
            (lineMetric.group.tangent_translation_map ![1]
              lineMetric.left_or_right true ![1]))) := by
  have h := C5_exp_structure lineMetric ![1] ![1] (fun _ => rfl) (fun _ => rfl)
    rfl (by
      intro hc
      have h0 := hc 0
      norm_num [lineGroup, lineMetric, qIsClose, ATOL, RTOL, abs_of_pos] at h0)
  exact ⟨h.1 rfl, h.2.2.1 rfl⟩

/-- C5 counterexample: the claim says `exp(v, p)` with `p ≠ identity`
translates, exponentiates at identity and composes with `p`.  At
`p = [10⁻⁹] ≠ [0]`, within the `gs.allclose` tolerance (`atol = 10⁻⁸`), the
code takes the identity branch (line 596-597) and returns
`exp_from_identity(v) = [1]`, not the composed value `[1 + 10⁻⁹]`. -/
theorem C5_counterexample :
    (![(1 : ℚ) / 1000000000] ≠ lineGroup.identity)
    ∧ lineMetric.exp ![1] (some ![(1 : ℚ) / 1000000000])
        ≠ lineMetric.group.regularize (lineMetric.group.compose
            ![(1 : ℚ) / 1000000000]
            (lineMetric.exp_from_identity
              (lineMetric.group.tangent_translation_map
                ![(1 : ℚ) / 1000000000]
                lineMetric.left_or_right true ![1]))) := by
  constructor
  · intro h
    have h0 := congrFun h 0
    norm_num [lineGroup] at h0
  · have hclose : vAllClose ![(1 : ℚ) / 1000000000] (fun _ => (0 : ℚ)) := by
      intro i
      fin_cases i
      norm_num [qIsClose, ATOL, RTOL, abs_of_pos]
    intro h
    have h0 := congrFun h 0
    norm_num [VecInvariantMetric.exp, VecInvariantMetric.exp_from_identity,
      VecInvariantMetric.left_exp_from_identity, lineMetric, lineGroup,
      lineBackend, hclose, Matrix.vecMul, Matrix.dotProduct,
      Matrix.transpose_apply, Matrix.one_apply, Fin.sum_univ_succ,
      Pi.add_apply] at h0

/-- C6 amended: `BiInvariantMetric.__init__` raises `ValueError` at
construction if and only if the group's PRINTED representation contains none
of the markers `'SpecialOrthogonal'`, `'SO'`, `'SpecialOrthogonal3'` (a
string-based check, lines 836-843): the guard is nominal, not semantic.
Every successful construction (in particular on an actual rotation group,
whose representation names `SpecialOrthogonal`) yields the metric matrix
`eye(dim)` at identity with the default left orientation, and the error is
raised in the constructor, never deferred. -/
theorem C6_biinvariant_name_guard (dm : ℕ) (g : GroupInfo dm)
    (be : EigBackend dm) :
    (biInvariantMetricInit dm g be = Except.error PyError.valueError
      ↔ (containsSub ("SpecialOrthogonal".toList) g.printed = false
         ∧ containsSub ("SO".toList) g.printed = false
         ∧ containsSub ("SpecialOrthogonal3".toList) g.printed = false))
    ∧ (∀ cfg, biInvariantMetricInit dm g be = Except.ok cfg →
        cfg.metric_mat_at_identity = 1 ∧ cfg.left_or_right = .left)
    ∧ (containsSub ("SpecialOrthogonal".toList) g.printed = true →
        biInvariantMetricInit dm g be
          = Except.ok (invariantMetricInit dm be (some 1) .left)) := by
  simp only [biInvariantMetricInit]
  generalize containsSub ("SpecialOrthogonal".toList) g.printed = c1
  generalize containsSub ("SO".toList) g.printed = c2
  generalize containsSub ("SpecialOrthogonal3".toList) g.printed = c3
  refine ⟨?_, ?_, ?_⟩ <;> cases c1 <;> cases c2 <;> cases c3 <;>
    simp [invariantMetricInit]

/-- Witness for C6 (amended) at the rotation-group tag
`"SpecialOrthogonal(3)"`: construction succeeds with metric matrix
`eye(3)`. -/
theorem C6_witness :
    biInvariantMetricInit 3 rotationGroupInfo eyeEig3
      = Except.ok (invariantMetricInit 3 eyeEig3 (some 1) .left) :=
  (C6_biinvariant_name_guard 3 rotationGroupInfo eyeEig3).2.2 (by decide)

/-- C6 counterexample: the claim says construction on a group that is NOT a
(special) orthogonal / rotation group raises a configuration error.  The
check is string-based: on a plain translation group (composition is
componentwise addition) whose printed representation `"SOmeVectorGroup"`
happens to contain `'SO'`, construction SUCCEEDS, returning the identity
metric matrix with signature `(2, 0, 0)`. -/
theorem C6_counterexample :
    biInvariantMetricInit 2 soNamedVectorGroup eyeEig2
      = Except.ok { metric_mat_at_identity := 1, left_or_right := .left,
                    signature := (2, 0, 0) }
    ∧ soNamedVectorGroup.compose ![1, 0] ![0, 1] = ![1, 1] := by
  constructor
  · simp only [biInvariantMetricInit]
    rw [if_neg (by decide :
      ¬ ((!containsSub ("SpecialOrthogonal".toList) soNamedVectorGroup.printed
          && !containsSub ("SO".toList) soNamedVectorGroup.printed
          && !containsSub ("SpecialOrthogonal3".toList)
              soNamedVectorGroup.printed) = true))]
    norm_num [invariantMetricInit, eyeEig2, qIsClose, ATOL, RTOL,
      List.filter, sub_zero, abs_one, decide_eq_true_eq]
  · funext i
    fin_cases i <;> norm_num [soNamedVectorGroup]

/-- C4 amended: in the embedding every operation is a function of its
explicit inputs and the metric configuration, except `euler_poincarre_log`,
which draws its optimizer initialization from the global random generator
(`gs.random.rand`, line 807): it reads the hidden generator state and
advances it.  Its outcome is determined by the observed draw: two calls whose
generator states produce the same draw return the same result. -/
theorem C4_log_determined_by_draw {n d : ℕ} (m : MatInvariantMetric n d)
    (opt : Optimizer n) (rb : RandBackend n) (s1 s2 : ℕ)
    (point base_point : Mat n) (n_steps : ℕ) (scheme : StepScheme)
    (max_iter : ℕ) (tol : ℚ) (hr : rb.rand s1 = rb.rand s2) :
    m.euler_poincarre_log opt rb s1 point base_point n_steps scheme max_iter
        tol
      = m.euler_poincarre_log opt rb s2 point base_point n_steps scheme
          max_iter tol := by
  cases h : m.lie_algebra <;>
    simp [MatInvariantMetric.euler_poincarre_log, h, hr]

/-- Witness for C4 (amended): generator states `0` and `2` of `collRand`
observe the same draw, so the two calls agree. -/
theorem C4_witness :
    affMetric.euler_poincarre_log affOptimizer collRand 0 1 1 3
        StepScheme.group_rk4 25 (1 / 10000000000)
      = affMetric.euler_poincarre_log affOptimizer collRand 2 1 1 3
          StepScheme.group_rk4 25 (1 / 10000000000) :=
  C4_log_determined_by_draw affMetric affOptimizer collRand 0 2 1 1 3
    StepScheme.group_rk4 25 (1 / 10000000000) rfl

/-- C4 counterexample: the claim says every public operation, including
`euler_poincarre_log`, is a deterministic pure function of its explicit
inputs and the metric configuration.  Two calls with identical explicit
inputs but different hidden generator states return different results (the
random initialization is returned by an optimizer instance that keeps its
initial guess), and each call advances the generator state. -/
theorem C4_counterexample :
    affMetric.euler_poincarre_log affOptimizer affRand 0 1 1 3
        StepScheme.group_rk4 25 (1 / 10000000000)
      ≠ affMetric.euler_poincarre_log affOptimizer affRand 1 1 1 3
          StepScheme.group_rk4 25 (1 / 10000000000) := by
  intro h
  simp [MatInvariantMetric.euler_poincarre_log, affMetric, affOptimizer,
    affRand, affGroup, Prod.ext_iff] at h
